import Mathlib

/-!
Verification development for the geocoding2 repository.

The repository enriches CSV rows with coordinates from an address-lookup
service.  The scripts embedded here are:

* `scripts/geocoder_chunked.py`   — chunked, resumable enrichment pipeline
  (`get_coordinates`, `process_chunk`, `process_file_chunked`);
* `scripts/retry_timeout.py`      — recovery pass re-resolving rows whose
  recorded error is a timeout or transport error;
* `scripts/fix_notfound.py` and `scripts/fix_old_municipalities.py`
  — fallback passes trying alternative query strings for not-found rows
  (`try_address_variants`).

Numeric coordinate values are modelled as integers: no arithmetic is ever
performed on them, only extraction and transposition of payload indices.
Network responses are supplied by oracles (one response per attempt index),
and the deterministic-service assumptions of the specification are modelled
by making the service a function of the query.
-/

namespace Geo

/-- Whitespace characters stripped by Python `str.strip()` (the ones that
occur in CSV address cells: ASCII whitespace and the ideographic space). -/
def isSpaceChar (c : Char) : Bool :=
  c == ' ' || c == '\t' || c == '\n' || c == '\r' || c == '　'

/-- `str.strip()` on the character list: drop whitespace from both ends. -/
def trimList (l : List Char) : List Char :=
  ((l.dropWhile isSpaceChar).reverse.dropWhile isSpaceChar).reverse

/-- `str.strip()` on strings. -/
def strTrim (s : String) : String := ⟨trimList s.data⟩

/-- Python `pd.isna(address) or str(address).strip() == ""`: a cell read with
`dtype=str` is either a string or NaN, modelled as `Option String`. -/
def emptyAddr : Option String → Bool
  | none => true
  | some s => strTrim s == ""

/-- `leadsList n h` is true when the character list `n` is an initial run of
`h` (used to model Python substring containment). -/
def leadsList : List Char → List Char → Bool
  | [], _ => true
  | _ :: _, [] => false
  | a :: as, b :: bs => a == b && leadsList as bs

/-- `hasRun n h` is true when `n` occurs contiguously inside `h`; models
pandas `str.contains` with a literal (metacharacter-free) pattern. -/
def hasRun (n : List Char) : List Char → Bool
  | [] => leadsList n []
  | b :: bs => leadsList n (b :: bs) || hasRun n bs

/-- `isInit s t` holds when `s` is an initial segment of the event list `t`;
an interruption point of a run is exactly an initial segment of its trace. -/
def isInit {α : Type} (s t : List α) : Prop := ∃ u, s ++ u = t

end Geo

namespace Geocoder

/-- One element of the JSON array returned by the GSI address-search API, as
`geocoder_chunked.get_coordinates` consumes it: `properties.title` and
`geometry.coordinates` may each be missing (Python `KeyError`), and the
coordinate list may be too short (Python `IndexError`). -/
structure Feature where
  title : Option String
  coordinates : Option (List Int)
deriving DecidableEq

/-- What one network attempt of `geocoder_chunked.get_coordinates` observes:
a successful 2xx JSON response (`ok`), `asyncio.TimeoutError`, or an
`aiohttp.ClientError` (connection failure, non-2xx raised by
`raise_for_status`, or a non-JSON body raising `ContentTypeError`). -/
inductive AResp where
  | ok (data : List Feature)
  | timeout
  | clientError (detail : String)

/-- Events of one call to `geocoder_chunked.get_coordinates`: semaphore
acquisition and release (`async with semaphore`), one HTTP request per loop
attempt, and the backoff `asyncio.sleep(0.5)`. -/
inductive GEv where
  | acquire
  | release
  | request (attempt : Nat)
  | sleep
deriving DecidableEq, BEq

/-- The dict returned by `geocoder_chunked.get_coordinates`, with keys
該当住所 / 緯度 / 経度 / エラー. -/
structure GCResult where
  matched : String
  lat : Option Int
  lon : Option Int
  error : String
deriving DecidableEq

/-- Field extraction from `data[0]`, in the evaluation order of the source:
`data[0]["geometry"]["coordinates"]` first, then the result dict evaluates
`data[0]["properties"]["title"]`, `coordinates[1]`, `coordinates[0]`. -/
def extractFeature (f : Feature) : Except String (String × Int × Int) :=
  match f.coordinates with
  | none => Except.error "KeyError"
  | some cs =>
    match f.title with
    | none => Except.error "KeyError"
    | some t =>
      match cs[1]? with
      | none => Except.error "IndexError"
      | some la =>
        match cs[0]? with
        | none => Except.error "IndexError"
        | some lo => Except.ok (t, la, lo)

/-- The `for attempt in range(retry_count)` loop of
`geocoder_chunked.get_coordinates`, lines 38-68.  `remaining` counts the
attempts still available including the current one (so the Python guard
`attempt < retry_count - 1` is `0 < remaining - 1`, i.e. the recursion is
taken only when at least one further attempt remains); the `0` case is the
`return` after the loop body (`リトライ上限`), reached only when
`retry_count = 0`. -/
def gcAttempts (oracle : Nat → AResp) (attempt : Nat) : Nat → GCResult × List GEv
  | 0 => (⟨"", none, none, "リトライ上限"⟩, [])
  | remaining + 1 =>
    match oracle attempt with
    | AResp.ok data =>
      match data with
      | [] => (⟨"", none, none, "住所が見つかりません"⟩, [GEv.request attempt])
      | f :: _ =>
        match extractFeature f with
        | Except.ok (t, la, lo) => (⟨t, some la, some lo, ""⟩, [GEv.request attempt])
        | Except.error e =>
          (⟨"", none, none, "解析エラー: " ++ e⟩, [GEv.request attempt])
    | AResp.timeout =>
      if 0 < remaining then
        let next := gcAttempts oracle (attempt + 1) remaining
        (next.1, GEv.request attempt :: GEv.sleep :: next.2)
      else (⟨"", none, none, "タイムアウト"⟩, [GEv.request attempt])
    | AResp.clientError d =>
      if 0 < remaining then
        let next := gcAttempts oracle (attempt + 1) remaining
        (next.1, GEv.request attempt :: GEv.sleep :: next.2)
      else (⟨"", none, none, "通信エラー: " ++ d⟩, [GEv.request attempt])

/-- `geocoder_chunked.get_coordinates` (lines 22-68): empty or NaN address
returns 住所が空です before the semaphore is touched; otherwise the whole
retry loop runs inside one `async with semaphore` block.  Returns the result
together with the event trace of the call. -/
def get_coordinates (oracle : Nat → AResp) (address : Option String)
    (retry_count : Nat) : GCResult × List GEv :=
  if Geo.emptyAddr address then (⟨"", none, none, "住所が空です"⟩, [])
  else
    let r := gcAttempts oracle 0 retry_count
    (r.1, GEv.acquire :: r.2 ++ [GEv.release])

/-- True when some `sleep` event happens while the semaphore depth is
positive, i.e. the gate is held across a backoff sleep. -/
def sleepHeld : List GEv → Nat → Bool
  | [], _ => false
  | GEv.acquire :: t, d => sleepHeld t (d + 1)
  | GEv.release :: t, d => sleepHeld t (d - 1)
  | GEv.request _ :: t, d => sleepHeld t d
  | GEv.sleep :: t, d => decide (0 < d) || sleepHeld t d

/-- Recogniser for request events. -/
def isReq : GEv → Bool
  | GEv.request _ => true
  | _ => false

/-- Number of network attempts in a trace. -/
def countReq (t : List GEv) : Nat := (t.filter isReq).length

/-- Number of gate acquisitions in a trace. -/
def countAcq (t : List GEv) : Nat :=
  (t.filter (fun e => e == GEv.acquire)).length

/-- Formalisation of the claimed gate discipline: the gate is never held
across a backoff sleep, and there is one acquisition per network attempt. -/
def gatePerAttempt (t : List GEv) : Prop :=
  sleepHeld t 0 = false ∧ countAcq t = countReq t

/-- One input row: the address cell (possibly NaN) plus the remaining cells,
carried verbatim. -/
structure Row where
  addr : Option String
  rest : List String
deriving DecidableEq

/-- One output row of a chunk: every input cell plus the four appended
columns 該当住所 / 緯度 / 経度 / エラー. -/
structure AugRow where
  row : Row
  matched : String
  lat : Option Int
  lon : Option Int
  error : String
deriving DecidableEq

/-- Augment one row with its lookup result (`process_chunk`, lines 84-88). -/
def mkAugRow (r : Row) (g : GCResult) : AugRow :=
  ⟨r, g.matched, g.lat, g.lon, g.error⟩

/-- The order-preserving net effect of `process_chunk`: each row augmented
with the result of resolving its own address (see `process_chunk` below and
the gather lemmas relating the two). -/
def processChunkPure (resolve : Option String → GCResult) (rows : List Row) :
    List AugRow :=
  rows.map (fun r => mkAugRow r (resolve r.addr))

/-- Slot table of `asyncio.gather`: task `i` writes its result into slot `i`
when it completes; `sched` is the completion order of the concurrent tasks. -/
def fillSlots {α : Type} (f : Nat → α) : List Nat → List (Option α) → List (Option α)
  | [], slots => slots
  | i :: rest, slots => fillSlots f rest (slots.set i (some (f i)))

/-- Read back a row of slots in index order; `none` as soon as a slot was
never filled. -/
def collectSlots {α : Type} (g : Nat → Option α) : List Nat → Option (List α)
  | [] => some []
  | i :: rest =>
    match g i, collectSlots g rest with
    | some x, some xs => some (x :: xs)
    | _, _ => none

/-- Model of `tqdm_asyncio.gather(*tasks)`: tasks complete in the arbitrary
order `sched`, each storing its result at its own index, and the results are
returned in task-argument order (index order).  `none` only if some task
never completed. -/
def gather {α : Type} (f : Nat → α) (n : Nat) (sched : List Nat) : Option (List α) :=
  let slots := fillSlots f sched (List.replicate n none)
  collectSlots (fun i => (slots[i]?).bind id) (List.range n)

/-- `geocoder_chunked.process_chunk` (lines 71-90): one task per row, results
collected by `gather`, columns assigned from the results list in row order.
`sched` is the completion order of the in-flight tasks. -/
def process_chunk (resolve : Option String → GCResult) (rows : List Row)
    (sched : List Nat) : Option (List AugRow) :=
  (gather (fun i => resolve (match rows[i]? with
      | some r => r.addr
      | none => none)) rows.length sched).map
    (fun gs => List.zipWith mkAugRow rows gs)

/-- Point update of the modelled output directory: writing
`result_..._partNNN.csv` replaces whatever part `p` held. -/
def updateFs (fs : Nat → Option (List AugRow)) (p : Nat) (v : List AugRow) :
    Nat → Option (List AugRow) :=
  fun q => if q = p then some v else fs q

/-- The rows of a chunk that reach the network: `get_coordinates` returns
before any request when the address is NaN or whitespace-only. -/
def chunkReqRows (rows : List Row) : List String :=
  rows.filterMap (fun r =>
    if Geo.emptyAddr r.addr then none
    else some (Geo.strTrim (r.addr.getD "")))

/-- The chunk loop of `process_file_chunked` (lines 157-189): parts are
numbered from 1; parts below `startP` are skipped (`continue`) without any
lookup or write; each processed part is resolved and its output file saved.
Returns the lookup events `(part, address)` and the final output files. -/
def runParts (resolve : Option String → GCResult) (startP : Nat) :
    List (List Row) → Nat → (Nat → Option (List AugRow)) →
      List (Nat × String) × (Nat → Option (List AugRow))
  | [], _, fs => ([], fs)
  | c :: rest, p, fs =>
    if p < startP then runParts resolve startP rest (p + 1) fs
    else
      let next := runParts resolve startP rest (p + 1)
        (updateFs fs p (processChunkPure resolve c))
      ((chunkReqRows c).map (fun a => (p, a)) ++ next.1, next.2)

/-- Resume point from the progress file (lines 110-114): absent checkpoint
starts at part 1, a checkpoint recording part `k` starts at part `k + 1`. -/
def startPart : Option Nat → Nat
  | none => 1
  | some k => k + 1

/-- `geocoder_chunked.process_file_chunked`, restricted to its chunk loop:
read the checkpoint, then stream the chunks from part 1. -/
def process_file_chunked (resolve : Option String → GCResult)
    (checkpoint : Option Nat) (chunks : List (List Row))
    (fs : Nat → Option (List AugRow)) :
    List (Nat × String) × (Nat → Option (List AugRow)) :=
  runParts resolve (startPart checkpoint) chunks 1 fs

/-- Filesystem events of `process_file_chunked`.  `df.to_csv(output_file)`
opens the final output path, truncating it (`beginWrite`), streams the rows
and closes it (`endWrite`) — there is no temporary file and no atomic
replace in the source.  The progress file is then overwritten with the part
number (`writeCheckpoint`), and deleted after the last part. -/
inductive FsEv where
  | beginWrite (part : Nat)
  | endWrite (part : Nat)
  | writeCheckpoint (part : Nat)
  | deleteCheckpoint
deriving DecidableEq

/-- Filesystem trace of the chunk loop (lines 157-197): skipped parts emit
nothing; each processed part writes its output file and then the checkpoint;
after the last chunk the progress file is unlinked. -/
def runTrace (s : Nat) : List (List Row) → Nat → List FsEv
  | [], _ => [FsEv.deleteCheckpoint]
  | _ :: rest, p =>
    if p < s then runTrace s rest (p + 1)
    else
      FsEv.beginWrite p :: FsEv.endWrite p :: FsEv.writeCheckpoint p ::
        runTrace s rest (p + 1)

/-- The claimed durable-write discipline: at no interruption point (initial
segment of the trace) is any output file begun but not finished — which is
what writing by atomic replace would guarantee. -/
def neverTruncatedWrite (t : List FsEv) : Prop :=
  ∀ s, Geo.isInit s t → ∀ p, FsEv.beginWrite p ∈ s → FsEv.endWrite p ∈ s

end Geocoder

namespace RetryTimeout

/-- What one attempt of `retry_timeout.get_coordinates` observes: a non-200
status, a non-JSON HTML page (content-type check, lines 48-53), a timeout,
an `aiohttp.ClientError`, or a 200 JSON payload. -/
inductive RResp where
  | badStatus (code : Nat)
  | htmlPage
  | timeout
  | clientError (detail : String)
  | okJson (data : List Geocoder.Feature)

/-- The dict returned by `retry_timeout.get_coordinates`: a success flag plus
the string fields written back into the CSV (coordinates pass through
`str(...)`, so they are strings here).  The failure dicts of the source carry
only `success` and `error`; the other fields are empty strings then. -/
structure RtRes where
  success : Bool
  matched : String
  lat : String
  lon : String
  error : String
deriving DecidableEq

/-- Field extraction of `retry_timeout.get_coordinates` lines 66-73:
`coords = data[0]['geometry']['coordinates']`, then title, `str(coords[1])`,
`str(coords[0])`; a missing key or short list raises into the
`(KeyError, IndexError, Exception)` handler. -/
def rtExtract (f : Geocoder.Feature) : Except String (String × String × String) :=
  match f.coordinates with
  | none => Except.error "KeyError"
  | some cs =>
    match f.title with
    | none => Except.error "KeyError"
    | some t =>
      match cs[1]? with
      | none => Except.error "IndexError"
      | some la =>
        match cs[0]? with
        | none => Except.error "IndexError"
        | some lo => Except.ok (t, toString la, toString lo)

/-- The `for attempt in range(retry_count)` loop of
`retry_timeout.get_coordinates`, lines 36-91.  Every failure branch —
including the parse-error branch at lines 85-89 — retries while attempts
remain (`attempt < retry_count - 1`, i.e. `0 < remaining - 1` here).  The
trace records the attempt index of every request issued. -/
def rtAttempts (oracle : Nat → RResp) (attempt : Nat) : Nat → RtRes × List Nat
  | 0 => (⟨false, "", "", "", "リトライ上限"⟩, [])
  | remaining + 1 =>
    match oracle attempt with
    | RResp.badStatus c =>
      if 0 < remaining then
        let next := rtAttempts oracle (attempt + 1) remaining
        (next.1, attempt :: next.2)
      else (⟨false, "", "", "", "通信エラー: HTTP " ++ toString c⟩, [attempt])
    | RResp.htmlPage =>
      if 0 < remaining then
        let next := rtAttempts oracle (attempt + 1) remaining
        (next.1, attempt :: next.2)
      else (⟨false, "", "", "", "通信エラー: HTML返却"⟩, [attempt])
    | RResp.timeout =>
      if 0 < remaining then
        let next := rtAttempts oracle (attempt + 1) remaining
        (next.1, attempt :: next.2)
      else (⟨false, "", "", "", "タイムアウト"⟩, [attempt])
    | RResp.clientError d =>
      if 0 < remaining then
        let next := rtAttempts oracle (attempt + 1) remaining
        (next.1, attempt :: next.2)
      else (⟨false, "", "", "", "通信エラー: " ++ d⟩, [attempt])
    | RResp.okJson data =>
      match data with
      | [] => (⟨true, "", "", "", "住所が見つかりません"⟩, [attempt])
      | f :: _ =>
        match rtExtract f with
        | Except.ok (t, la, lo) => (⟨true, t, la, lo, ""⟩, [attempt])
        | Except.error e =>
          if 0 < remaining then
            let next := rtAttempts oracle (attempt + 1) remaining
            (next.1, attempt :: next.2)
          else (⟨false, "", "", "", "解析エラー: " ++ e⟩, [attempt])

/-- `retry_timeout.get_coordinates` (lines 25-91): empty or NaN address
short-circuits before the semaphore; otherwise the retry loop runs. -/
def get_coordinates (oracle : Nat → RResp) (address : Option String)
    (retry_count : Nat) : RtRes × List Nat :=
  if Geo.emptyAddr address then (⟨false, "", "", "", "住所が空です"⟩, [])
  else rtAttempts oracle 0 retry_count

/-- One row of an output CSV as `retry_timeout.main` sees it (`dtype=str`,
NaN as `none`): the five columns the pass reads or writes, plus every other
column of the file carried verbatim in `rest` (the fallback columns
近しい住所 / 近しい住所の緯度 / 近しい住所の経度 live in `rest` when present,
since this pass never names them). -/
structure RtRow where
  addr : Option String
  matched : Option String
  lat : Option String
  lon : Option String
  error : Option String
  rest : List (String × Option String)
deriving DecidableEq

/-- Selection predicate of `retry_timeout.main` lines 112-115:
`df['エラー'].fillna('')` contains タイムアウト or 通信エラー (literal
patterns, so plain substring containment). -/
def rtMask (r : RtRow) : Bool :=
  hasRunStr "タイムアウト" (r.error.getD "") ||
    hasRunStr "通信エラー" (r.error.getD "")
where
  /-- substring containment on strings -/
  hasRunStr (n h : String) : Bool := Geo.hasRun n.data h.data

/-- Write-back of one result (lines 136-145): on success all four result
columns are overwritten, otherwise only エラー. -/
def rtApply (r : RtRow) (res : RtRes) : RtRow :=
  if res.success then
    { r with matched := some res.matched, lat := some res.lat,
             lon := some res.lon, error := some res.error }
  else { r with error := some res.error }

/-- Per-row effect of the recovery pass: rows matching the selection
predicate are re-resolved and overwritten, all other rows untouched. -/
def rtStep (resolve : Option String → RtRes) (r : RtRow) : RtRow :=
  if rtMask r then rtApply r (resolve r.addr) else r

/-- Content effect of `retry_timeout.main` on one output file: the selected
rows (in row order, as the gathered results are zipped back onto the
selected indices) are overwritten in place; when no row is selected the file
is not rewritten at all, which is content-equal to this map. -/
def retryPass (resolve : Option String → RtRes) (rows : List RtRow) :
    List RtRow :=
  rows.map (rtStep resolve)

/-- Whether a row carries the 近しい住所 fallback column among its extra
columns. -/
def rtHasFallbackCols (r : RtRow) : Bool :=
  r.rest.any (fun kv => kv.1 == "近しい住所")

end RetryTimeout

namespace FixVariants

/-- The success dict of `fix_old_municipalities.get_coordinates` /
`fix_notfound.get_coordinates`: matched title, the query string that
succeeded (`query_address`), and the stringified coordinates. -/
structure Found where
  matched : String
  query : String
  lat : String
  lon : String
deriving DecidableEq

/-- `get_coordinates` of the fallback scripts: any failure (non-JSON
content type, exception, empty data) is `found: False`, a non-empty payload
yields the first feature with `query_address` set to the query just issued.
`svc` is the deterministic service: `some (title, lat, lon)` when the
address resolves. -/
def get_coordinates (svc : String → Option (String × String × String))
    (address : String) : Option Found :=
  match svc address with
  | some (t, la, lo) => some ⟨t, address, la, lo⟩
  | none => none

/-- The candidate loop of `try_address_variants`
(`fix_old_municipalities.py` lines 172-176): candidates are tried in order,
stopping at the first success.  Returns the result together with the list of
queries actually issued. -/
def tryCandidates (svc : String → Option (String × String × String)) :
    List String → Option Found × List String
  | [] => (none, [])
  | c :: rest =>
    match get_coordinates svc c with
    | some r => (some r, [c])
    | none =>
      let next := tryCandidates svc rest
      (next.1, c :: next.2)

/-- `try_address_variants` (lines 169-176): generate the ordered candidate
list for the address and try it.  `gen` is the CandidateGenerator —
`convert_address` in `fix_old_municipalities.py`, or the concatenated
Hamamatsu / Kyoto / general variant chain of `fix_notfound.py`. -/
def try_address_variants (svc : String → Option (String × String × String))
    (gen : String → List String) (address : String) :
    Option Found × List String :=
  tryCandidates svc (gen address)

/-- One row of an output CSV as `fix_notfound.main` sees it: the two columns
the pass reads (住所, エラー), the three fallback columns it writes, and all
other columns verbatim in `rest`. -/
structure NfRow where
  addr : Option String
  error : Option String
  fq : Option String
  flat : Option String
  flon : Option String
  rest : List (String × Option String)
deriving DecidableEq

/-- An output file: whether the three 近しい住所 columns are present in the
header, plus the rows.  The per-row `fq`/`flat`/`flon` cells are meaningful
only when `hasF` is true (`none` is then an empty cell read back as NaN). -/
structure NfFile where
  hasF : Bool
  rows : List NfRow
deriving DecidableEq

/-- Effect on one row of `df['近しい住所'] = ''` (and the two coordinate
columns) when the columns are created. -/
def addEmptyF (r : NfRow) : NfRow :=
  { r with fq := some "", flat := some "", flon := some "" }

/-- Column creation of `fix_notfound.main` lines 183-188: if the fallback
columns are absent they are added, filled with the empty string; otherwise
the file is untouched. -/
def nfAddCols (f : NfFile) : NfFile :=
  if f.hasF then f else ⟨true, f.rows.map addEmptyF⟩

/-- Selection predicate of `fix_notfound.main` line 191: エラー equals
住所が見つかりません (a NaN cell compares unequal) and the fallback query is
still empty after `fillna('')`. -/
def nfMask (r : NfRow) : Bool :=
  (r.error == some "住所が見つかりません") && ((r.fq.getD "") == "")

/-- Per-row effect of the fallback pass (lines 202-211): a selected row
whose variant search succeeds gets the three fallback columns filled; a
selected row whose search fails, and every unselected row, is untouched. -/
def nfStep (resolveV : Option String → Option Found) (r : NfRow) : NfRow :=
  if nfMask r then
    match resolveV r.addr with
    | some res =>
      { r with fq := some res.query, flat := some res.lat,
               flon := some res.lon }
    | none => r
  else r

/-- Content effect of `fix_notfound.main` on one output file: add the
fallback columns if absent, then process the selected rows. -/
def nfPass (resolveV : Option String → Option Found) (f : NfFile) : NfFile :=
  ⟨true, (nfAddCols f).rows.map (nfStep resolveV)⟩

end FixVariants

namespace Inputs

/-- Oracle timing out on the first attempt and answering an empty array on
the second. -/
def c5oracle : Nat → Geocoder.AResp := fun a =>
  if a = 0 then Geocoder.AResp.timeout else Geocoder.AResp.ok []

/-- A payload element with both expected fields missing. -/
def badFeature : Geocoder.Feature := ⟨none, none⟩

/-- Oracle returning a 200 JSON payload whose first element is malformed, on
every attempt. -/
def c6oracle : Nat → RetryTimeout.RResp := fun _ =>
  RetryTimeout.RResp.okJson [badFeature]

/-- A row recorded as timed out, in a file without the fallback columns. -/
def c10row : RetryTimeout.RtRow :=
  ⟨some "千代田区一丁目", some "", none, none, some "タイムアウト", []⟩

/-- A resolving service for the recovery pass. -/
def c10resolve : Option String → RetryTimeout.RtRes := fun _ =>
  ⟨true, "千代田区", "35", "139", ""⟩

/-- A deterministic resolving service for the pipeline. -/
def resolve0 : Option String → Geocoder.GCResult := fun _ =>
  ⟨"甲", some 35, some 139, ""⟩

/-- First sample row. -/
def row0 : Geocoder.Row := ⟨some "住所一", []⟩

/-- Second sample row. -/
def row1 : Geocoder.Row := ⟨some "住所二", []⟩

/-- Third sample row, with an empty address. -/
def row2 : Geocoder.Row := ⟨some "", []⟩

/-- Two sample chunks. -/
def chunks0 : List (List Geocoder.Row) := [[row0], [row1]]

/-- Output directory as left by an interrupted run that completed part 1. -/
def fs0 : Nat → Option (List Geocoder.AugRow) := fun p =>
  if p = 1 then some (Geocoder.processChunkPure resolve0 [row0]) else none

/-- A service for the fallback scripts resolving only the query 乙. -/
def svc0 : String → Option (String × String × String) := fun q =>
  if q = "乙" then some ("丙", "35", "139") else none

/-- A candidate generator yielding three candidates. -/
def gen0 : String → List String := fun _ => ["甲", "乙", "丁"]

/-- A recovery-pass service used for the idempotence witness. -/
def c9resolve : Option String → RetryTimeout.RtRes := fun a =>
  if a = some "住所一" then ⟨true, "甲", "35", "139", ""⟩
  else ⟨false, "", "", "", "タイムアウト"⟩

/-- Two recovery-pass rows: one timed out, one resolved. -/
def c9rows : List RetryTimeout.RtRow :=
  [⟨some "住所一", some "", none, none, some "タイムアウト", []⟩,
   ⟨some "住所二", some "乙", some "34", some "135", some "", []⟩]

/-- A fallback-pass row that does not match the selection predicate. -/
def nfr0 : FixVariants.NfRow := ⟨some "甲", some "", some "", some "", some "", []⟩

/-- A recovery-pass row that does not match the selection predicate. -/
def rtr0 : RetryTimeout.RtRow := ⟨some "甲", some "", none, none, some "", []⟩

/-- A one-row file without the fallback columns. -/
def nff0 : FixVariants.NfFile := ⟨false, [⟨some "甲", some "住所が見つかりません", none, none, none, []⟩]⟩

end Inputs


/-! ## Helper lemmas -/

namespace Geo

theorem mem_of_isInit {α : Type} {x : α} {s t : List α} (hx : x ∈ s)
    (h : isInit s t) : x ∈ t := by
  obtain ⟨u, rfl⟩ := h
  exact List.mem_append_left u hx

theorem isInit_cons {α : Type} {s t : List α} {a : α}
    (h : isInit s (a :: t)) : s = [] ∨ ∃ s2, s = a :: s2 ∧ isInit s2 t := by
  obtain ⟨u, hu⟩ := h
  cases s with
  | nil => exact Or.inl rfl
  | cons x xs =>
    rw [List.cons_append] at hu
    obtain ⟨h1, h2⟩ := List.cons.inj hu
    exact Or.inr ⟨xs, by rw [h1], ⟨u, h2⟩⟩

end Geo

namespace Geocoder

theorem gcAttempts_events (oracle : Nat → AResp) :
    ∀ (rem attempt : Nat) (e : GEv), e ∈ (gcAttempts oracle attempt rem).2 →
      isReq e = true ∨ e = GEv.sleep := by
  intro rem
  induction rem with
  | zero => intro attempt e he; simp [gcAttempts] at he
  | succ n ih =>
    intro attempt e he
    simp only [gcAttempts] at he
    cases h0 : oracle attempt with
    | ok data =>
      rw [h0] at he
      cases data with
      | nil => simp at he; subst he; exact Or.inl rfl
      | cons f fs =>
        cases hex : extractFeature f with
        | ok v =>
          obtain ⟨t, la, lo⟩ := v
          simp [hex] at he
          subst he; exact Or.inl rfl
        | error msg =>
          simp [hex] at he
          subst he; exact Or.inl rfl
    | timeout =>
      rw [h0] at he
      by_cases hn : 0 < n
      · simp only [if_pos hn, List.mem_cons] at he
        rcases he with rfl | rfl | he
        · exact Or.inl rfl
        · exact Or.inr rfl
        · exact ih (attempt + 1) e he
      · simp only [if_neg hn] at he
        simp at he; subst he; exact Or.inl rfl
    | clientError d =>
      rw [h0] at he
      by_cases hn : 0 < n
      · simp only [if_pos hn, List.mem_cons] at he
        rcases he with rfl | rfl | he
        · exact Or.inl rfl
        · exact Or.inr rfl
        · exact ih (attempt + 1) e he
      · simp only [if_neg hn] at he
        simp at he; subst he; exact Or.inl rfl

end Geocoder

namespace RetryTimeout

theorem rtAttempts_malformed (oracle : Nat → RResp) (f : Geocoder.Feature)
    (ds : List Geocoder.Feature) (e : String)
    (hor : ∀ k, oracle k = RResp.okJson (f :: ds))
    (hex : rtExtract f = Except.error e) :
    ∀ (rem attempt : Nat), 1 ≤ rem →
      (rtAttempts oracle attempt rem).1.error = "解析エラー: " ++ e ∧
      (rtAttempts oracle attempt rem).2.length = rem := by
  intro rem
  induction rem with
  | zero => intro attempt h; exact absurd h (by decide)
  | succ n ih =>
    intro attempt _
    simp only [rtAttempts, hor attempt, hex]
    by_cases hn : 0 < n
    · have h2 := ih (attempt + 1) hn
      simp only [if_pos hn]
      exact ⟨h2.1, by simp [h2.2]⟩
    · have hn0 : n = 0 := by omega
      subst hn0
      simp

theorem rtApply_addr (r : RtRow) (res : RtRes) :
    (rtApply r res).addr = r.addr := by
  unfold rtApply; split <;> rfl

theorem rtApply_twice (r : RtRow) (res : RtRes) :
    rtApply (rtApply r res) res = rtApply r res := by
  unfold rtApply; split <;> rfl

theorem rtStep_idem (resolve : Option String → RtRes) (r : RtRow) :
    rtStep resolve (rtStep resolve r) = rtStep resolve r := by
  by_cases hm : rtMask r = true
  · simp only [rtStep, hm, if_pos]
    by_cases hm2 : rtMask (rtApply r (resolve r.addr)) = true
    · simp only [hm2, if_pos, rtApply_addr, rtApply_twice]
    · simp only [Bool.not_eq_true] at hm2
      simp [hm2]
  · simp only [Bool.not_eq_true] at hm
    simp [rtStep, hm]

end RetryTimeout

namespace FixVariants

theorem tryCandidates_all_none
    (svc : String → Option (String × String × String)) :
    ∀ l : List String, (∀ c ∈ l, svc c = none) →
      tryCandidates svc l = (none, l) := by
  intro l
  induction l with
  | nil => intro _; rfl
  | cons c rest ih =>
    intro h
    have hc : svc c = none := h c (by simp)
    simp [tryCandidates, get_coordinates, hc,
      ih (fun d hd => h d (by simp [hd]))]

end FixVariants

/-! ## Claim theorems -/

/-- C4: for a `NotFound` row whose candidate generator yields `[A, B, C]`
where `A` fails and `B` resolves, `try_address_variants` issues exactly the
two lookups `A` then `B`, never queries `C`, and records `B` as the fallback
query; and when no candidate resolves, the result is `none` (all candidates
were tried, in order) and the fallback pass leaves the row unchanged, its
status remaining 住所が見つかりません. -/
theorem c4_fallback_priority_order :
    (∀ (svc : String → Option (String × String × String))
        (gen : String → List String) (address A B C t la lo : String),
        gen address = [A, B, C] → svc A = none → svc B = some (t, la, lo) →
        FixVariants.try_address_variants svc gen address =
          (some ⟨t, B, la, lo⟩, [A, B]))
    ∧ (∀ (svc : String → Option (String × String × String))
        (gen : String → List String) (address : String),
        (∀ c ∈ gen address, svc c = none) →
        FixVariants.try_address_variants svc gen address = (none, gen address))
    ∧ (∀ (resolveV : Option String → Option FixVariants.Found)
        (r : FixVariants.NfRow), resolveV r.addr = none →
        FixVariants.nfStep resolveV r = r) := by
  refine ⟨?_, ?_, ?_⟩
  · intro svc gen address A B C t la lo hgen hA hB
    unfold FixVariants.try_address_variants
    rw [hgen]
    simp [FixVariants.tryCandidates, FixVariants.get_coordinates, hA, hB]
  · intro svc gen address h
    exact FixVariants.tryCandidates_all_none svc (gen address) h
  · intro resolveV r h
    by_cases hm : FixVariants.nfMask r = true
    · simp [FixVariants.nfStep, hm, h]
    · simp only [Bool.not_eq_true] at hm
      simp [FixVariants.nfStep, hm]

/-- Witness for C4: a concrete generator yielding three candidates of which
only the second resolves, and a concrete service resolving nothing. -/
theorem c4_witness :
    FixVariants.try_address_variants Inputs.svc0 Inputs.gen0 "何か" =
      (some ⟨"丙", "乙", "35", "139"⟩, ["甲", "乙"]) ∧
    FixVariants.try_address_variants (fun _ => none) Inputs.gen0 "何か" =
      (none, Inputs.gen0 "何か") :=
  ⟨c4_fallback_priority_order.1 Inputs.svc0 Inputs.gen0 "何か" "甲" "乙" "丁"
      "丙" "35" "139" rfl (by decide) (by decide),
   c4_fallback_priority_order.2.1 (fun _ => none) Inputs.gen0 "何か"
      (fun _ _ => rfl)⟩

/-- C5 counterexample: in `geocoder_chunked.get_coordinates` the semaphore is
not acquired per attempt and released before the backoff sleep — on an
oracle that times out once and then answers, the call's trace holds the gate
across the `asyncio.sleep`, and acquires once for two requests. -/
theorem c5_counterexample :
    ¬ Geocoder.gatePerAttempt
        (Geocoder.get_coordinates Inputs.c5oracle (some "東京都") 3).2 := by
  unfold Geocoder.gatePerAttempt
  decide

/-- C5 as amended: for every row that reaches the network, the gate is
acquired exactly once, before the first attempt, and released exactly once,
after the final attempt; every request and every backoff sleep of the row
happens while the gate is held. -/
theorem c5_gate_held_for_whole_row (oracle : Nat → Geocoder.AResp)
    (address : Option String) (retry_count : Nat)
    (h : Geo.emptyAddr address = false) :
    ∃ body, (Geocoder.get_coordinates oracle address retry_count).2 =
        Geocoder.GEv.acquire :: body ++ [Geocoder.GEv.release] ∧
      ∀ e ∈ body, Geocoder.isReq e = true ∨ e = Geocoder.GEv.sleep := by
  refine ⟨(Geocoder.gcAttempts oracle 0 retry_count).2, ?_, ?_⟩
  · simp [Geocoder.get_coordinates, h]
  · intro e he
    exact Geocoder.gcAttempts_events oracle retry_count 0 e he

/-- Witness for C5 as amended, at the oracle of the counterexample. -/
theorem c5_witness :
    ∃ body, (Geocoder.get_coordinates Inputs.c5oracle (some "東京都") 3).2 =
        Geocoder.GEv.acquire :: body ++ [Geocoder.GEv.release] ∧
      ∀ e ∈ body, Geocoder.isReq e = true ∨ e = Geocoder.GEv.sleep :=
  c5_gate_held_for_whole_row Inputs.c5oracle (some "東京都") 3 (by decide)

/-- C6 counterexample: the recovery-pass client
(`retry_timeout.get_coordinates`) does NOT return a parse error after the
first malformed payload — with every attempt answering a malformed 200 JSON
payload and the default budget of 5 attempts, five requests are issued. -/
theorem c6_counterexample :
    (RetryTimeout.get_coordinates Inputs.c6oracle (some "甲") 5).2 =
        [0, 1, 2, 3, 4] ∧
      ¬ (RetryTimeout.get_coordinates Inputs.c6oracle (some "甲") 5).2.length
          = 1 := by
  decide

/-- C6 as amended: the chunked geocoder's client returns 解析エラー
immediately upon the first malformed successful payload, with exactly one
request issued; the recovery-pass client instead retries malformed payloads
and records 解析エラー only on the final attempt, issuing as many requests
as its attempt budget. -/
theorem c6_parse_error_policy :
    (∀ (oracle : Nat → Geocoder.AResp) (address : Option String)
        (retry_count : Nat) (f : Geocoder.Feature) (ds : List Geocoder.Feature)
        (e : String),
        Geo.emptyAddr address = false → 1 ≤ retry_count →
        oracle 0 = Geocoder.AResp.ok (f :: ds) →
        Geocoder.extractFeature f = Except.error e →
        (Geocoder.get_coordinates oracle address retry_count).1.error =
            "解析エラー: " ++ e ∧
          Geocoder.countReq
            (Geocoder.get_coordinates oracle address retry_count).2 = 1)
    ∧ (∀ (oracle : Nat → RetryTimeout.RResp) (address : Option String)
        (retry_count : Nat) (f : Geocoder.Feature) (ds : List Geocoder.Feature)
        (e : String),
        Geo.emptyAddr address = false → 1 ≤ retry_count →
        (∀ k, oracle k = RetryTimeout.RResp.okJson (f :: ds)) →
        RetryTimeout.rtExtract f = Except.error e →
        (RetryTimeout.get_coordinates oracle address retry_count).1.error =
            "解析エラー: " ++ e ∧
          (RetryTimeout.get_coordinates oracle address retry_count).2.length =
            retry_count) := by
  constructor
  · intro oracle address retry_count f ds e hne hr h0 hex
    obtain ⟨m, rfl⟩ : ∃ m, retry_count = m + 1 :=
      ⟨retry_count - 1, (Nat.succ_pred_eq_of_pos hr).symm⟩
    constructor
    · simp [Geocoder.get_coordinates, hne, Geocoder.gcAttempts, h0, hex]
    · simp [Geocoder.get_coordinates, hne, Geocoder.gcAttempts, h0, hex,
        Geocoder.countReq, Geocoder.isReq, List.filter]
  · intro oracle address retry_count f ds e hne hr hor hex
    have h := RetryTimeout.rtAttempts_malformed oracle f ds e hor hex
      retry_count 0 hr
    constructor
    · simpa [RetryTimeout.get_coordinates, hne] using h.1
    · simpa [RetryTimeout.get_coordinates, hne] using h.2

/-- Witness for C6 as amended: a malformed payload on every attempt, with
budget 3 for the chunked client and budget 5 for the recovery client. -/
theorem c6_witness :
    ((Geocoder.get_coordinates (fun _ => Geocoder.AResp.ok [Inputs.badFeature])
          (some "乙") 3).1.error = "解析エラー: " ++ "KeyError" ∧
      Geocoder.countReq (Geocoder.get_coordinates
          (fun _ => Geocoder.AResp.ok [Inputs.badFeature]) (some "乙") 3).2 = 1)
    ∧ ((RetryTimeout.get_coordinates Inputs.c6oracle (some "甲") 5).1.error =
          "解析エラー: " ++ "KeyError" ∧
        (RetryTimeout.get_coordinates Inputs.c6oracle (some "甲") 5).2.length
          = 5) :=
  ⟨c6_parse_error_policy.1 (fun _ => Geocoder.AResp.ok [Inputs.badFeature])
      (some "乙") 3 Inputs.badFeature [] "KeyError" (by decide) (by decide)
      rfl rfl,
   c6_parse_error_policy.2 Inputs.c6oracle (some "甲") 5 Inputs.badFeature []
      "KeyError" (by decide) (by decide) (fun _ => rfl) rfl⟩

/-- C7: a record whose query is missing, empty, or whitespace-only resolves
to 住所が空です (AddressEmpty) immediately, with an empty event trace — no
network request and no gate acquisition. -/
theorem c7_address_empty_short_circuit (oracle : Nat → Geocoder.AResp)
    (address : Option String) (retry_count : Nat)
    (h : Geo.emptyAddr address = true) :
    Geocoder.get_coordinates oracle address retry_count =
      (⟨"", none, none, "住所が空です"⟩, []) := by
  simp [Geocoder.get_coordinates, h]

/-- Witness for C7 at a whitespace-only address and at a missing (NaN)
address. -/
theorem c7_witness :
    Geocoder.get_coordinates (fun _ => Geocoder.AResp.timeout)
        (some " 　 ") 3 = (⟨"", none, none, "住所が空です"⟩, []) ∧
    Geocoder.get_coordinates (fun _ => Geocoder.AResp.timeout) none 3 =
      (⟨"", none, none, "住所が空です"⟩, []) :=
  ⟨c7_address_empty_short_circuit _ _ _ (by decide),
   c7_address_empty_short_circuit _ _ _ (by decide)⟩

/-- C8: a successful lookup whose payload's first element carries the
two-element coordinate pair `[x, y]` (longitude then latitude, as the
service sends it) produces 緯度 = `y` (index 1) and 経度 = `x` (index 0):
the payload ordering is transposed to latitude/longitude exactly. -/
theorem c8_coordinate_transposition (oracle : Nat → Geocoder.AResp)
    (address : Option String) (retry_count : Nat) (f : Geocoder.Feature)
    (ds : List Geocoder.Feature) (t : String) (x y : Int)
    (hne : Geo.emptyAddr address = false) (hr : 1 ≤ retry_count)
    (h0 : oracle 0 = Geocoder.AResp.ok (f :: ds))
    (ht : f.title = some t) (hc : f.coordinates = some [x, y]) :
    (Geocoder.get_coordinates oracle address retry_count).1 =
      ⟨t, some y, some x, ""⟩ := by
  obtain ⟨m, rfl⟩ : ∃ m, retry_count = m + 1 :=
    ⟨retry_count - 1, (Nat.succ_pred_eq_of_pos hr).symm⟩
  simp [Geocoder.get_coordinates, hne, Geocoder.gcAttempts, h0,
    Geocoder.extractFeature, ht, hc]

/-- Witness for C8: a payload carrying `[139, 35]` surfaces as latitude 35,
longitude 139. -/
theorem c8_witness :
    (Geocoder.get_coordinates
        (fun _ => Geocoder.AResp.ok [⟨some "甲", some [139, 35]⟩])
        (some "乙") 3).1 = ⟨"甲", some 35, some 139, ""⟩ :=
  c8_coordinate_transposition _ _ _ ⟨some "甲", some [139, 35]⟩ [] "甲" 139 35
    (by decide) (by decide) rfl rfl rfl

/-- C9: the recovery pass is idempotent — applying it twice with the same
deterministic service gives the same file as applying it once — and a row
resolved by the first application (エラー cleared to the empty string) no
longer matches the selection predicate, so it is not re-requested. -/
theorem c9_recovery_idempotent (resolve : Option String → RetryTimeout.RtRes)
    (rows : List RetryTimeout.RtRow) :
    RetryTimeout.retryPass resolve (RetryTimeout.retryPass resolve rows) =
      RetryTimeout.retryPass resolve rows ∧
    ∀ r : RetryTimeout.RtRow, r.error = some "" →
      RetryTimeout.rtMask r = false := by
  constructor
  · unfold RetryTimeout.retryPass
    rw [List.map_map]
    exact List.map_congr_left
      (fun r _ => RetryTimeout.rtStep_idem resolve r)
  · intro r h
    simp only [RetryTimeout.rtMask, h, Option.getD_some]
    decide

/-- Witness for C9 on a two-row file, one row timed out and one resolved. -/
theorem c9_witness :
    RetryTimeout.retryPass Inputs.c9resolve
        (RetryTimeout.retryPass Inputs.c9resolve Inputs.c9rows) =
      RetryTimeout.retryPass Inputs.c9resolve Inputs.c9rows ∧
    RetryTimeout.rtMask ⟨some "甲", none, none, none, some "", []⟩ = false :=
  ⟨(c9_recovery_idempotent Inputs.c9resolve Inputs.c9rows).1,
   (c9_recovery_idempotent Inputs.c9resolve Inputs.c9rows).2 _ rfl⟩

/-- C10 counterexample: the recovery pass (`retry_timeout.main`) does not
add the fallback columns when they are absent — on a file whose single row
matches the selection predicate (so the pass does rewrite the file), the
output still carries no 近しい住所 column. -/
theorem c10_counterexample :
    RetryTimeout.rtMask Inputs.c10row = true ∧
    RetryTimeout.retryPass Inputs.c10resolve [Inputs.c10row] ≠ [Inputs.c10row] ∧
    (RetryTimeout.retryPass Inputs.c10resolve [Inputs.c10row]).all
      RetryTimeout.rtHasFallbackCols = false := by
  decide

/-- C10 as amended: the fallback pass (`fix_notfound.main`) adds the three
fallback columns, empty, when absent, and both passes mutate only rows
matching their selection predicate: every other row keeps its address,
status and remaining columns untouched (up to the column addition in the
fallback pass), and the recovery pass adds no columns at all. -/
theorem c10_selection_frame :
    (∀ (resolveV : Option String → Option FixVariants.Found)
        (r : FixVariants.NfRow), FixVariants.nfMask r = false →
        FixVariants.nfStep resolveV r = r)
    ∧ (∀ f : FixVariants.NfFile, f.hasF = true → FixVariants.nfAddCols f = f)
    ∧ (∀ f : FixVariants.NfFile, f.hasF = false →
        (FixVariants.nfAddCols f).rows = f.rows.map FixVariants.addEmptyF)
    ∧ (∀ r : FixVariants.NfRow, (FixVariants.addEmptyF r).addr = r.addr ∧
        (FixVariants.addEmptyF r).error = r.error ∧
        (FixVariants.addEmptyF r).rest = r.rest ∧
        (FixVariants.addEmptyF r).fq = some "" ∧
        (FixVariants.addEmptyF r).flat = some "" ∧
        (FixVariants.addEmptyF r).flon = some "")
    ∧ (∀ (resolve : Option String → RetryTimeout.RtRes)
        (r : RetryTimeout.RtRow), RetryTimeout.rtMask r = false →
        RetryTimeout.rtStep resolve r = r)
    ∧ (∀ (resolve : Option String → RetryTimeout.RtRes)
        (r : RetryTimeout.RtRow),
        (RetryTimeout.rtStep resolve r).rest = r.rest ∧
        (RetryTimeout.rtStep resolve r).addr = r.addr) := by
  refine ⟨?_, ?_, ?_, ?_, ?_, ?_⟩
  · intro resolveV r h
    simp [FixVariants.nfStep, h]
  · intro f h
    simp [FixVariants.nfAddCols, h]
  · intro f h
    simp [FixVariants.nfAddCols, h]
  · intro r
    exact ⟨rfl, rfl, rfl, rfl, rfl, rfl⟩
  · intro resolve r h
    simp [RetryTimeout.rtStep, h]
  · intro resolve r
    by_cases h : RetryTimeout.rtMask r = true
    · simp only [RetryTimeout.rtStep, h, if_pos]
      unfold RetryTimeout.rtApply
      constructor <;> (split <;> rfl)
    · simp only [Bool.not_eq_true] at h
      simp [RetryTimeout.rtStep, h]

/-- Witness for C10 as amended, at concrete unselected rows and a concrete
column-less file. -/
theorem c10_witness :
    FixVariants.nfStep (fun _ => none) Inputs.nfr0 = Inputs.nfr0 ∧
    RetryTimeout.rtStep Inputs.c10resolve Inputs.rtr0 = Inputs.rtr0 ∧
    (FixVariants.nfAddCols Inputs.nff0).rows =
      Inputs.nff0.rows.map FixVariants.addEmptyF :=
  ⟨c10_selection_frame.1 (fun _ => none) Inputs.nfr0 (by decide),
   c10_selection_frame.2.2.2.2.1 Inputs.c10resolve Inputs.rtr0 (by decide),
   c10_selection_frame.2.2.1 Inputs.nff0 (by decide)⟩

/-! ## Gather and chunk-loop lemmas -/

namespace Geocoder

theorem fillSlots_length {α : Type} (f : Nat → α) :
    ∀ (sched : List Nat) (slots : List (Option α)),
      (fillSlots f sched slots).length = slots.length := by
  intro sched
  induction sched with
  | nil => intro slots; rfl
  | cons i rest ih => intro slots; simp [fillSlots, ih]

theorem fillSlots_not_mem {α : Type} (f : Nat → α) :
    ∀ (sched : List Nat) (slots : List (Option α)) (j : Nat), j ∉ sched →
      (fillSlots f sched slots)[j]? = slots[j]? := by
  intro sched
  induction sched with
  | nil => intro slots j _; rfl
  | cons i rest ih =>
    intro slots j hj
    simp only [List.mem_cons, not_or] at hj
    rw [fillSlots, ih _ j hj.2, List.getElem?_set_ne (Ne.symm hj.1)]

theorem fillSlots_mem {α : Type} (f : Nat → α) :
    ∀ (sched : List Nat) (slots : List (Option α)) (j : Nat), j ∈ sched →
      j < slots.length → (fillSlots f sched slots)[j]? = some (some (f j)) := by
  intro sched
  induction sched with
  | nil => intro slots j hj _; simp at hj
  | cons i rest ih =>
    intro slots j hj hlt
    by_cases hjr : j ∈ rest
    · rw [fillSlots]
      exact ih _ j hjr (by simpa using hlt)
    · have hji : j = i := by
        rcases List.mem_cons.mp hj with h | h
        · exact h
        · exact absurd h hjr
      subst hji
      rw [fillSlots, fillSlots_not_mem f rest _ j hjr,
        List.getElem?_set_self hlt]

theorem collectSlots_of_eq_some {β : Type} (f : Nat → β) :
    ∀ (l : List Nat) (g : Nat → Option β), (∀ i ∈ l, g i = some (f i)) →
      collectSlots g l = some (l.map f) := by
  intro l
  induction l with
  | nil => intro g _; rfl
  | cons i rest ih =>
    intro g h
    have hi : g i = some (f i) := h i (by simp)
    have hr := ih g (fun j hj => h j (by simp [hj]))
    simp [collectSlots, hi, hr]

theorem gather_complete {α : Type} (f : Nat → α) (n : Nat) (sched : List Nat)
    (h : ∀ i, i < n → i ∈ sched) :
    gather f n sched = some ((List.range n).map f) := by
  unfold gather
  apply collectSlots_of_eq_some
  intro i hi
  have hin : i < n := List.mem_range.mp hi
  rw [fillSlots_mem f sched _ i (h i hin) (by simpa using hin)]
  rfl

theorem zipWith_gather_results (resolve : Option String → GCResult) :
    ∀ (rows : List Row) (g : Nat → GCResult),
      (∀ i, g i = resolve (match rows[i]? with
        | some r => r.addr
        | none => none)) →
      List.zipWith mkAugRow rows ((List.range rows.length).map g) =
        processChunkPure resolve rows := by
  intro rows
  induction rows with
  | nil => intro g _; rfl
  | cons r rs ih =>
    intro g hg
    have h0 : g 0 = resolve r.addr := by simpa using hg 0
    rw [List.length_cons, List.range_succ_eq_map, List.map_cons,
      List.zipWith_cons_cons, h0, List.map_map]
    unfold processChunkPure
    rw [List.map_cons]
    congr 1
    have hsh : ∀ i, (g ∘ Nat.succ) i = resolve (match rs[i]? with
        | some r2 => r2.addr
        | none => none) := by
      intro i
      simpa using hg (i + 1)
    exact ih (g ∘ Nat.succ) hsh

theorem runParts_req_ge (resolve : Option String → GCResult) (s : Nat) :
    ∀ (cs : List (List Row)) (p : Nat) (fs : Nat → Option (List AugRow))
      (e : Nat × String), e ∈ (runParts resolve s cs p fs).1 →
      s ≤ e.1 ∧ p ≤ e.1 := by
  intro cs
  induction cs with
  | nil => intro p fs e he; simp [runParts] at he
  | cons c rest ih =>
    intro p fs e he
    by_cases hp : p < s
    · simp only [runParts, if_pos hp] at he
      have h2 := ih (p + 1) fs e he
      exact ⟨h2.1, by omega⟩
    · simp only [runParts, if_neg hp, List.mem_append] at he
      rcases he with h | h
      · obtain ⟨a, _, rfl⟩ := List.mem_map.mp h
        exact ⟨by omega, by omega⟩
      · have h2 := ih (p + 1) _ e h
        exact ⟨h2.1, by omega⟩

theorem runParts_fs_low (resolve : Option String → GCResult) (s : Nat) :
    ∀ (cs : List (List Row)) (p : Nat) (fs : Nat → Option (List AugRow))
      (q : Nat), q < s ∨ q < p → (runParts resolve s cs p fs).2 q = fs q := by
  intro cs
  induction cs with
  | nil => intro p fs q _; rfl
  | cons c rest ih =>
    intro p fs q hq
    by_cases hp : p < s
    · simp only [runParts, if_pos hp]
      exact ih (p + 1) fs q (by omega)
    · simp only [runParts, if_neg hp]
      rw [ih (p + 1) _ q (by omega)]
      simp only [updateFs]
      rw [if_neg (by omega)]

theorem runParts_fs_high (resolve : Option String → GCResult) (s : Nat) :
    ∀ (cs : List (List Row)) (p : Nat) (fs : Nat → Option (List AugRow))
      (q : Nat), s ≤ q → p ≤ q → q < p + cs.length →
      (runParts resolve s cs p fs).2 q =
        (cs[q - p]?).map (processChunkPure resolve) := by
  intro cs
  induction cs with
  | nil =>
    intro p fs q _ hp hlt
    simp only [List.length_nil, Nat.add_zero] at hlt
    omega
  | cons c rest ih =>
    intro p fs q hs hp hlt
    simp only [List.length_cons] at hlt
    by_cases hps : p < s
    · simp only [runParts, if_pos hps]
      rw [ih (p + 1) fs q hs (by omega) (by omega)]
      rw [show q - p = (q - (p + 1)) + 1 from by omega, List.getElem?_cons_succ]
    · by_cases hqp : q = p
      · subst hqp
        simp only [runParts, if_neg hps]
        rw [runParts_fs_low resolve s rest (q + 1) _ q (Or.inr (by omega))]
        simp [updateFs]
      · simp only [runParts, if_neg hps]
        rw [ih (p + 1) _ q hs (by omega) (by omega)]
        rw [show q - p = (q - (p + 1)) + 1 from by omega, List.getElem?_cons_succ]

end Geocoder

/-- C1: starting `process_file_chunked` with a checkpoint recording chunk K
resumes at chunk K+1 — no lookup event belongs to any chunk 1..K, the output
files of parts 1..K keep their prior contents, the files of parts K+1..n
equal those of an uninterrupted run, and (given the deterministic service)
if the prior files of parts 1..K agree with the uninterrupted run then every
output file does; an absent checkpoint starts at chunk 1. -/
theorem c1_resume_from_checkpoint (resolve : Option String → Geocoder.GCResult)
    (chunks : List (List Geocoder.Row)) (K : Nat)
    (fs : Nat → Option (List Geocoder.AugRow)) :
    (∀ e ∈ (Geocoder.process_file_chunked resolve (some K) chunks fs).1,
        K + 1 ≤ e.1)
    ∧ (∀ p, p ≤ K →
        (Geocoder.process_file_chunked resolve (some K) chunks fs).2 p = fs p)
    ∧ (∀ p, K + 1 ≤ p → p ≤ chunks.length →
        (Geocoder.process_file_chunked resolve (some K) chunks fs).2 p =
          (Geocoder.process_file_chunked resolve none chunks
            (fun _ => none)).2 p)
    ∧ ((∀ p, 1 ≤ p → p ≤ K → fs p =
          (Geocoder.process_file_chunked resolve none chunks
            (fun _ => none)).2 p) →
        ∀ p, 1 ≤ p → p ≤ chunks.length →
          (Geocoder.process_file_chunked resolve (some K) chunks fs).2 p =
            (Geocoder.process_file_chunked resolve none chunks
              (fun _ => none)).2 p)
    ∧ Geocoder.startPart none = 1 := by
  simp only [Geocoder.process_file_chunked, Geocoder.startPart]
  refine ⟨?_, ?_, ?_, ?_, trivial⟩
  · intro e he
    exact (Geocoder.runParts_req_ge resolve (K + 1) chunks 1 fs e he).1
  · intro p hp
    exact Geocoder.runParts_fs_low resolve (K + 1) chunks 1 fs p
      (Or.inl (by omega))
  · intro p h1 h2
    rw [Geocoder.runParts_fs_high resolve (K + 1) chunks 1 fs p h1 (by omega)
        (by omega),
      Geocoder.runParts_fs_high resolve 1 chunks 1 (fun _ => none) p (by omega)
        (by omega) (by omega)]
  · intro hagree p h1 h2
    by_cases hK : p ≤ K
    · rw [Geocoder.runParts_fs_low resolve (K + 1) chunks 1 fs p
        (Or.inl (by omega))]
      exact hagree p h1 hK
    · rw [Geocoder.runParts_fs_high resolve (K + 1) chunks 1 fs p (by omega)
          (by omega) (by omega),
        Geocoder.runParts_fs_high resolve 1 chunks 1 (fun _ => none) p
          (by omega) (by omega) (by omega)]

/-- Witness for C1: two chunks, a checkpoint at part 1 and the part-1 output
file of the interrupted run; part 1 is untouched and no lookup is issued for
it, part 2 matches the uninterrupted run. -/
theorem c1_witness :
    (∀ e ∈ (Geocoder.process_file_chunked Inputs.resolve0 (some 1)
        Inputs.chunks0 Inputs.fs0).1, 1 + 1 ≤ e.1) ∧
    (Geocoder.process_file_chunked Inputs.resolve0 (some 1) Inputs.chunks0
        Inputs.fs0).2 1 = Inputs.fs0 1 ∧
    (Geocoder.process_file_chunked Inputs.resolve0 (some 1) Inputs.chunks0
        Inputs.fs0).2 2 =
      (Geocoder.process_file_chunked Inputs.resolve0 none Inputs.chunks0
        (fun _ => none)).2 2 :=
  ⟨(c1_resume_from_checkpoint Inputs.resolve0 Inputs.chunks0 1 Inputs.fs0).1,
   (c1_resume_from_checkpoint Inputs.resolve0 Inputs.chunks0 1
      Inputs.fs0).2.1 1 (by decide),
   (c1_resume_from_checkpoint Inputs.resolve0 Inputs.chunks0 1
      Inputs.fs0).2.2.1 2 (by decide) (by decide)⟩

/-- C2 counterexample: the output file of a chunk is not written by atomic
replace — `to_csv` opens and streams into the final path, so the run trace
has an interruption point (right after `beginWrite`) at which the output
file of part 1 is begun but not finished. -/
theorem c2_counterexample :
    ¬ Geocoder.neverTruncatedWrite (Geocoder.runTrace 1 [[]] 1) := by
  intro h
  have h2 := h [Geocoder.FsEv.beginWrite 1]
    ⟨[Geocoder.FsEv.endWrite 1, Geocoder.FsEv.writeCheckpoint 1,
      Geocoder.FsEv.deleteCheckpoint], by decide⟩ 1 (by decide)
  exact absurd h2 (by decide)

/-- C2 as amended: each chunk's output is written by a direct (non-atomic)
`to_csv` write that completes strictly before the checkpoint is updated to
that chunk — at every interruption point of the run, any chunk named by a
checkpoint written in this run has its output write already finished, so the
persisted checkpoint never names an absent or unfinished output file. -/
theorem c2_output_durable_before_checkpoint
    (chunks : List (List Geocoder.Row)) (s : Nat) :
    ∀ (p : Nat) (pre : List Geocoder.FsEv),
      Geo.isInit pre (Geocoder.runTrace s chunks p) →
      ∀ q, Geocoder.FsEv.writeCheckpoint q ∈ pre →
        Geocoder.FsEv.endWrite q ∈ pre := by
  induction chunks with
  | nil =>
    intro p pre hpre q hq
    have h2 := Geo.mem_of_isInit hq hpre
    simp [Geocoder.runTrace] at h2
  | cons c rest ih =>
    intro p pre hpre q hq
    by_cases hp : p < s
    · simp only [Geocoder.runTrace, if_pos hp] at hpre
      exact ih (p + 1) pre hpre q hq
    · simp only [Geocoder.runTrace, if_neg hp] at hpre
      rcases Geo.isInit_cons hpre with rfl | ⟨s1, rfl, h1⟩
      · simp at hq
      rcases Geo.isInit_cons h1 with rfl | ⟨s2, rfl, h2⟩
      · simp at hq
      rcases Geo.isInit_cons h2 with rfl | ⟨s3, rfl, h3⟩
      · simp at hq
      simp only [List.mem_cons] at hq
      rcases hq with h | h | h | h
      · exact absurd h (by simp)
      · exact absurd h (by simp)
      · have hqp : q = p := by
          injection h
        subst hqp
        simp
      · have h4 := ih (p + 1) s3 h3 q h
        simp [h4]

/-- Witness for C2 as amended: on a one-chunk run, the full trace contains
`writeCheckpoint 1` and therefore also `endWrite 1`. -/
theorem c2_witness :
    Geocoder.FsEv.endWrite 1 ∈ Geocoder.runTrace 1 [[]] 1 :=
  c2_output_durable_before_checkpoint [[]] 1 1 (Geocoder.runTrace 1 [[]] 1)
    ⟨[], by simp⟩ 1 (by decide)

/-- C3: for every completion order of the concurrent per-row tasks that
completes every task, the augmented chunk equals the input rows each
augmented with its own lookup result, in the original row order — the i-th
output row is the i-th input row augmented, whatever the completion order. -/
theorem c3_row_order_preserved (resolve : Option String → Geocoder.GCResult)
    (rows : List Geocoder.Row) (sched : List Nat)
    (h : ∀ i, i < rows.length → i ∈ sched) :
    Geocoder.process_chunk resolve rows sched =
      some (Geocoder.processChunkPure resolve rows) := by
  unfold Geocoder.process_chunk
  rw [Geocoder.gather_complete _ _ _ h]
  simp only [Option.map_some']
  congr 1
  exact Geocoder.zipWith_gather_results resolve rows _ (fun _ => rfl)

/-- Witness for C3: three rows whose tasks complete in the shuffled order
2, 0, 1 still produce the in-order augmented chunk. -/
theorem c3_witness :
    Geocoder.process_chunk Inputs.resolve0
        [Inputs.row0, Inputs.row2, Inputs.row1] [2, 0, 1] =
      some (Geocoder.processChunkPure Inputs.resolve0
        [Inputs.row0, Inputs.row2, Inputs.row1]) :=
  c3_row_order_preserved Inputs.resolve0 [Inputs.row0, Inputs.row2, Inputs.row1]
    [2, 0, 1] (by decide)
